import Mathlib

/-!
Verification of the drug-profile core of the BrainWideMap repository.

The definitions below are a shallow embedding of the Python sources:
  * `src/drug/schemas.py` (data model, unit conversion, best potency, ranking)
  * `src/drug/chembl_adapter.py` and `src/drug/iuphar_adapter.py`
    (unit normalizers, interaction-type classifier, evidence scorer)
  * `src/drug/drug_loader.py` (multi-source merge engine)
  * `src/neurothera_map/drug/profile.py` (seed dataset, fallback orchestration)

Python floats are modelled as exact rationals (scores that involve a square
root live in `ℝ`), Python dictionaries with string keys as association lists
that preserve insertion order, and Python exceptions as `Except`.
-/

namespace BrainWideMap

/-- ASCII lowercasing mapped over the characters, modelling Python lower.
Defined over the character list so that it reduces in the kernel. -/
def pyLower (s : String) : String :=
  ⟨s.data.map Char.toLower⟩

/-- Helper for `strContains`: does `needle` occur contiguously in the
character list? -/
def charsContains (needle : List Char) : List Char → Bool
  | [] => needle.isEmpty
  | c :: rest => needle.isPrefixOf (c :: rest) || charsContains needle rest

/-- Substring test: Python `needle in haystack` on strings. -/
def strContains (haystack needle : String) : Bool :=
  charsContains needle.data haystack.data

/-! ## Data model (`src/drug/schemas.py`) -/

/-- `InteractionType` enum from `schemas.py`. -/
inductive InteractionType where
  | agonist
  | antagonist
  | partialAgonist
  | inverseAgonist
  | allostericModulator
  | inhibitor
  | blocker
  | activator
  | unknown
deriving DecidableEq

/-- `PotencyUnit` enum from `schemas.py`. -/
inductive PotencyUnit where
  | molar
  | millimolar
  | micromolar
  | nanomolar
  | picomolar
  | unknown
deriving DecidableEq

/-- `PotencyMeasure` dataclass from `schemas.py`. -/
structure PotencyMeasure where
  value : ℚ
  unit : PotencyUnit
  measure_type : String
  assay_description : Option String := none
  pubmed_id : Option String := none
deriving DecidableEq

/-- `PotencyMeasure.to_nanomolar`: multiply by the conversion table entry,
`None` when the unit is not in the table (only the `unknown` unit). -/
def PotencyMeasure.to_nanomolar (m : PotencyMeasure) : Option ℚ :=
  match m.unit with
  | .molar => some (m.value * 1000000000)
  | .millimolar => some (m.value * 1000000)
  | .micromolar => some (m.value * 1000)
  | .nanomolar => some (m.value * 1)
  | .picomolar => some (m.value * (1 / 1000))
  | .unknown => none

/-- `TargetInteraction` dataclass from `schemas.py`. -/
structure TargetInteraction where
  target_gene_symbol : String
  target_uniprot_id : Option String := none
  target_name : Option String := none
  interaction_type : InteractionType := .unknown
  potency_measures : List PotencyMeasure := []
  evidence_score : Option ℚ := none
  source_database : Option String := none
deriving DecidableEq

/-- `TargetInteraction.get_best_potency_nm`: convert all measures, drop the
failed conversions, take the minimum, `None` when nothing is left. -/
def TargetInteraction.get_best_potency_nm (i : TargetInteraction) : Option ℚ :=
  ((i.potency_measures.map PotencyMeasure.to_nanomolar).reduceOption).min?

/-- `DrugProfile` dataclass from `schemas.py`.  The free-form
`uncertainty_metadata` dictionary holds heterogeneous values and is not
modelled; no claim depends on it. -/
structure DrugProfile where
  common_name : String
  synonyms : List String := []
  chembl_id : Option String := none
  iuphar_ligand_id : Option Int := none
  inchi_key : Option String := none
  smiles : Option String := none
  interactions : List TargetInteraction := []
  drug_class : Option String := none
  mechanism_summary : Option String := none
  is_approved : Bool := false
  source_databases : List String := []
  last_updated : Option String := none
deriving DecidableEq

/-! ## Primary-target ranking (`DrugProfile.get_primary_targets`)

The Python code sorts with `key=lambda x: x.get_best_potency_nm() or
float('inf')`.  The `or` idiom replaces both `None` and the falsy float
`0.0` by infinity, so the sort key lives in `WithTop ℚ`.  Python `sorted`
is a stable sort; `List.insertionSort` with a total preorder is the
canonical stable sort and models it exactly. -/

/-- Sort key of the Python lambda: best potency, with `None` and `0.0`
both sent to infinity by the `or` idiom. -/
def pyPotencyKey (i : TargetInteraction) : WithTop ℚ :=
  match i.get_best_potency_nm with
  | none => ⊤
  | some v => if v = 0 then ⊤ else (v : WithTop ℚ)

/-- Comparison used by the Python sort in `get_primary_targets`. -/
def potencyLe (a b : TargetInteraction) : Prop :=
  pyPotencyKey a ≤ pyPotencyKey b

instance : DecidableRel potencyLe := fun a b =>
  inferInstanceAs (Decidable (pyPotencyKey a ≤ pyPotencyKey b))

instance : IsTotal TargetInteraction potencyLe :=
  ⟨fun a b => le_total (pyPotencyKey a) (pyPotencyKey b)⟩

instance : IsTrans TargetInteraction potencyLe :=
  ⟨fun _ _ _ h1 h2 => le_trans h1 h2⟩

/-- `DrugProfile.get_primary_targets`: stable sort by the Python key,
truncate to `top_n`. -/
def DrugProfile.get_primary_targets (p : DrugProfile) (top_n : ℕ) :
    List TargetInteraction :=
  (List.insertionSort potencyLe p.interactions).take top_n

/-! ## Unit normalizers (`chembl_adapter.py` / `iuphar_adapter.py`) -/

/-- `ChEMBLAdapter._parse_potency_unit`.  Absent and empty strings are
falsy in Python, hence the empty-string default branch. -/
def chembl_parse_potency_unit (unit_str : Option String) : PotencyUnit :=
  match unit_str with
  | none => .nanomolar
  | some s =>
    if s = "" then .nanomolar
    else
      let unit_lower := pyLower s
      if strContains unit_lower "nm" then .nanomolar
      else if strContains unit_lower "um" then .micromolar
      else if strContains unit_lower "mm" then .millimolar
      else if strContains unit_lower "pm" then .picomolar
      else if unit_lower = "m" then .molar
      else .nanomolar

/-- `IUPHARAdapter._parse_potency_unit`.  The micro spelling matched by the
source is the Greek small mu, as in the Python file. -/
def iuphar_parse_potency_unit (unit_str : Option String) : PotencyUnit :=
  match unit_str with
  | none => .unknown
  | some s =>
    if s = "" then .unknown
    else
      let unit_lower := pyLower s
      if strContains unit_lower "nm" || strContains unit_lower "nanomolar" then
        .nanomolar
      else if strContains unit_lower "um" || strContains unit_lower "micromolar"
          || strContains unit_lower "μm" then
        .micromolar
      else if strContains unit_lower "mm" || strContains unit_lower "millimolar" then
        .millimolar
      else if strContains unit_lower "pm" || strContains unit_lower "picomolar" then
        .picomolar
      else .unknown

/-! ## Interaction-type classifier (`IUPHARAdapter._parse_interaction_type`) -/

/-- `IUPHARAdapter._parse_interaction_type`: lower-cased substring matching,
antagonist checked before agonist. -/
def iuphar_parse_interaction_type (interaction_str : String) : InteractionType :=
  let l := pyLower interaction_str
  if strContains l "antagonist" then .antagonist
  else if strContains l "agonist" then
    if strContains l "partial" then .partialAgonist
    else if strContains l "inverse" then .inverseAgonist
    else .agonist
  else if strContains l "inhibitor" || strContains l "inhibit" then .inhibitor
  else if strContains l "blocker" || strContains l "block" then .blocker
  else if strContains l "modulator" then .allostericModulator
  else .unknown

/-! ## Evidence scorer (`ChEMBLAdapter._calculate_evidence_score`)

A raw ChEMBL activity record, reduced to the fields the scorer reads. -/

/-- Raw activity record fields used by `_calculate_evidence_score`. -/
structure ChemblActivity where
  standard_value : Option ℚ := none
  standard_units : Option String := none
  standard_type : Option String := none
deriving DecidableEq

/-- The `values` list built by the scorer loop: skip records whose value is
absent or the falsy `0`, convert through `_parse_potency_unit` and
`to_nanomolar`, and keep only truthy (nonzero) conversions. -/
def chembl_activity_values (activities : List ChemblActivity) : List ℚ :=
  activities.filterMap (fun act =>
    match act.standard_value with
    | none => none
    | some v =>
      if v = 0 then none
      else
        let m : PotencyMeasure :=
          ⟨v, chembl_parse_potency_unit act.standard_units,
            act.standard_type.getD "unknown", none, none⟩
        match m.to_nanomolar with
        | none => none
        | some nm => if nm = 0 then none else some nm)

/-- `statistics.mean`. -/
def listMean (l : List ℚ) : ℚ := l.sum / l.length

/-- Sample variance with the `n - 1` denominator, as used by
`statistics.stdev` (squared). -/
def sampleVariance (l : List ℚ) : ℚ :=
  (l.map (fun x => (x - listMean l) ^ 2)).sum / ((l.length : ℚ) - 1)

/-- `statistics.stdev`: square root of the sample variance. -/
noncomputable def sampleStdev (l : List ℚ) : ℝ :=
  Real.sqrt ((sampleVariance l : ℚ) : ℝ)

/-- Python `round(x, 3)`: rounding to the nearest multiple of `1/1000`.
Python breaks exact halfway ties to even; no claim exercises a tie, so the
Mathlib `round` is an exact model on every input that appears here. -/
noncomputable def round3 (x : ℝ) : ℝ :=
  (round (1000 * x) : ℤ) / 1000

/-- `ChEMBLAdapter._calculate_evidence_score`. -/
noncomputable def calculate_evidence_score (activities : List ChemblActivity) : ℝ :=
  let n_studies := activities.length
  let values := chembl_activity_values activities
  let consistency_score : ℝ :=
    if 1 < values.length then
      let mean_val := listMean values
      let cv : ℝ := if 0 < mean_val then sampleStdev values / (mean_val : ℝ) else 1
      max 0 (1 - cv)
    else 0.5
  let n_score : ℝ := min 1 ((n_studies : ℝ) / 10)
  round3 (0.6 * n_score + 0.4 * consistency_score)

/-! Spec-side scorer, written from the words of the specification (C1):
study-count term `min(1, n/10)`, consistency term `max(0, 1 - stdev/mean)`
over the nanomolar-converted values when at least two exist, else `0.5`,
final score `0.6 * study_count + 0.4 * consistency` rounded to 3 decimals. -/

/-- The fixed conversion table of the specification. -/
def spec_conversion_factor : PotencyUnit → ℚ
  | .molar => 1000000000
  | .millimolar => 1000000
  | .micromolar => 1000
  | .nanomolar => 1
  | .picomolar => 1 / 1000
  | .unknown => 0

/-- The nanomolar-converted values of the records, per the specification:
every convertible value is kept, unknown-unit values are dropped. -/
def spec_nanomolar_values (activities : List ChemblActivity) : List ℚ :=
  activities.filterMap (fun act =>
    act.standard_value.bind (fun v =>
      match chembl_parse_potency_unit act.standard_units with
      | .unknown => none
      | u => some (v * spec_conversion_factor u)))

/-- The evidence-score formula as the specification states it. -/
noncomputable def spec_evidence_score (activities : List ChemblActivity) : ℝ :=
  let n_studies := activities.length
  let values := spec_nanomolar_values activities
  let consistency : ℝ :=
    if 2 ≤ values.length then
      max 0 (1 - sampleStdev values / (listMean values : ℝ))
    else 0.5
  round3 (0.6 * min 1 ((n_studies : ℝ) / 10) + 0.4 * consistency)

/-! ## Merge engine (`DrugLoader._merge_profiles`) -/

/-- One step of filling the Python `target_map` dictionary: append the value
to the entry of `k`, creating the entry at the end on first sight of `k`
(Python dictionaries preserve insertion order). -/
def mapAppend {β : Type} :
    List (String × List β) → String → β → List (String × List β)
  | [], k, v => [(k, [v])]
  | (k', vs) :: rest, k, v =>
    if k' = k then (k', vs ++ [v]) :: rest
    else (k', vs) :: mapAppend rest k v

/-- All interactions of all profiles, each tagged with the first source
label of its profile (`profile.source_databases[0]`; the Python code raises
on an empty source list, theorems assume it nonempty). -/
def taggedInteractions (profiles : List DrugProfile) :
    List (TargetInteraction × String) :=
  profiles.flatMap (fun p =>
    p.interactions.map (fun i => (i, p.source_databases.headD "")))

/-- The `target_map` dictionary: interactions grouped by exact target gene
symbol, in insertion order. -/
def buildTargetMap (profiles : List DrugProfile) :
    List (String × List (TargetInteraction × String)) :=
  (taggedInteractions profiles).foldl
    (fun m iv => mapAppend m iv.1.target_gene_symbol iv) []

/-- Python `max(group, key=lambda x: x[0].evidence_score or 0)`: the fold
keeps the current element on ties, so the first maximum wins. -/
def pyMaxByEvidence :
    List (TargetInteraction × String) → Option (TargetInteraction × String)
  | [] => none
  | x :: xs =>
    some (xs.foldl
      (fun best y =>
        if best.1.evidence_score.getD 0 < y.1.evidence_score.getD 0 then y
        else best)
      x)

/-- Per-target choice of `_merge_profiles`: a single contribution is kept
unchanged; otherwise the first IUPHAR-tagged contribution when
`prefer_iuphar` is set and one exists, else the best evidence score. -/
def chooseInteraction (prefer_iuphar : Bool)
    (group : List (TargetInteraction × String)) : Option TargetInteraction :=
  match group with
  | [] => none
  | [single] => some single.1
  | x :: y :: rest =>
    let g := x :: y :: rest
    let iuphar_ints := (g.filter (fun z => z.2 = "IUPHAR")).map Prod.fst
    match prefer_iuphar, iuphar_ints with
    | true, i :: _ => some i
    | _, _ => (pyMaxByEvidence g).map Prod.fst

/-- Python truthiness-aware `a or b` on optional strings
(`None` and `""` are falsy). -/
def pyOrStr (a b : Option String) : Option String :=
  match a with
  | some s => if s = "" then b else a
  | none => b

/-- Python truthiness-aware `a or b` on optional integers
(`None` and `0` are falsy). -/
def pyOrInt (a b : Option Int) : Option Int :=
  match a with
  | some n => if n = 0 then b else a
  | none => b

/-- `DrugLoader._merge_profiles`.  Python raises `IndexError` on an empty
profile list (`profiles[0]`), modelled by `none`.  The `set`-based synonym
and source unions have unspecified order in Python; they are modelled with
`dedup`, and no claim depends on them. -/
def merge_profiles (prefer_iuphar : Bool) (profiles : List DrugProfile) :
    Option DrugProfile :=
  match profiles with
  | [] => none
  | base :: _ =>
    let target_map := buildTargetMap profiles
    let merged_interactions :=
      target_map.filterMap (fun kg => chooseInteraction prefer_iuphar kg.2)
    some
      { common_name := base.common_name
        synonyms := (profiles.flatMap DrugProfile.synonyms).dedup
        chembl_id :=
          pyOrStr base.chembl_id
            (((profiles.filterMap DrugProfile.chembl_id).filter (· ≠ "")).head?)
        iuphar_ligand_id :=
          pyOrInt base.iuphar_ligand_id
            (((profiles.filterMap DrugProfile.iuphar_ligand_id).filter (· ≠ 0)).head?)
        inchi_key :=
          pyOrStr base.inchi_key
            (((profiles.filterMap DrugProfile.inchi_key).filter (· ≠ "")).head?)
        smiles :=
          pyOrStr base.smiles
            (((profiles.filterMap DrugProfile.smiles).filter (· ≠ "")).head?)
        interactions := merged_interactions
        drug_class := base.drug_class
        mechanism_summary := base.mechanism_summary
        is_approved := profiles.any DrugProfile.is_approved
        source_databases := (profiles.flatMap DrugProfile.source_databases).dedup
        last_updated := base.last_updated }

/-! ## Profile builder and fallback orchestrator
(`src/neurothera_map/drug/profile.py`, with the target types from
`src/neurothera_map/core/types.py`) -/

/-- A provenance value: the dictionary values the builder actually stores
(strings, booleans, integers, string lists). -/
inductive ProvVal where
  | pstr (s : String)
  | pbool (b : Bool)
  | pint (n : Int)
  | pstrs (l : List String)
deriving DecidableEq

/-- Python dictionary assignment `d[k] = v` on an insertion-ordered
association list: update in place when the key exists, append otherwise. -/
def dictSet : List (String × ProvVal) → String → ProvVal → List (String × ProvVal)
  | [], k, v => [(k, v)]
  | (k', v') :: rest, k, v =>
    if k' = k then (k, v) :: rest
    else (k', v') :: dictSet rest k v

/-- `DrugInteraction` from `core/types.py`.  The free-form `meta`
dictionary holds heterogeneous values and is not modelled; no claim
depends on it. -/
structure NTDrugInteraction where
  target : String
  affinity_nM : Option ℚ := none
  action : String := ""
  evidence : ℚ := 0
  source : String := ""
deriving DecidableEq

/-- `DrugProfile` from `core/types.py` (name, interactions, provenance). -/
structure NTDrugProfile where
  name : String
  interactions : List NTDrugInteraction := []
  provenance : List (String × ProvVal) := []
deriving DecidableEq

/-- Helper for `normalize_name`: Python `str.split()` on the character
list, accumulating the current word in reverse. -/
def wordsAux : List Char → List Char → List (List Char)
  | cur, [] => if cur.isEmpty then [] else [cur.reverse]
  | cur, c :: rest =>
    if c.isWhitespace then
      if cur.isEmpty then wordsAux [] rest
      else cur.reverse :: wordsAux [] rest
    else wordsAux (c :: cur) rest

/-- `_normalize_name`: collapse whitespace runs to single spaces (the
leading `strip` is subsumed by `split()`), then lower-case. -/
def normalize_name (name : String) : String :=
  pyLower ⟨List.intercalate [' '] (wordsAux [] name.data)⟩

/-- `unit.strip().lower()` as computed at the top of `_to_nM`. -/
def seed_unit_norm (unit : String) : String :=
  pyLower ⟨(unit.data.dropWhile Char.isWhitespace).reverse.dropWhile Char.isWhitespace |>.reverse⟩

/-- `_to_nM` from `profile.py`: the seed-path unit converter.  Unknown
units raise `ValueError`, modelled with `Except.error`.  The micro
spelling accepted here is the micro sign, as in the Python file. -/
def to_nM (value : ℚ) (unit : String) : Except String ℚ :=
  let unit_norm := seed_unit_norm unit
  if unit_norm = "nm" ∨ unit_norm = "nanomolar" then .ok value
  else if unit_norm = "um" ∨ unit_norm = "µm" ∨ unit_norm = "micromolar" then
    .ok (value * 1000)
  else if unit_norm = "mm" ∨ unit_norm = "millimolar" then .ok (value * 1000000)
  else .error ("Unsupported affinity unit: " ++ unit)

/-- One raw row of the seed database (all fields read with `row.get`). -/
structure SeedRow where
  target : Option String := none
  affinity : Option ℚ := none
  unit : Option String := none
  action : Option String := none
  evidence : Option ℚ := none
  source : Option String := none
deriving DecidableEq

/-- The built-in `_SEED_DB`. -/
def seed_db_default : List (String × List SeedRow) :=
  [("caffeine",
    [{ target := some "ADORA1", affinity := some 10, unit := some "uM",
       action := some "antagonist", evidence := some (7 / 10), source := some "seed" },
     { target := some "ADORA2A", affinity := some 10, unit := some "uM",
       action := some "antagonist", evidence := some (7 / 10), source := some "seed" }])]

/-- The errors `build_drug_profile` can raise. -/
inductive BuildError where
  | importError (msg : String)
  | runtimeError (msg : String)
  | valueError (msg : String)
deriving DecidableEq

/-- The body of the row loop in `_build_from_seed`: affinity and unit both
present go through `_to_nM` (whose `ValueError` aborts the build), anything
else yields an absent affinity. -/
def seed_row_interaction (row : SeedRow) : Except BuildError NTDrugInteraction :=
  (match row.affinity, row.unit with
   | some a, some u =>
     match to_nM a u with
     | .ok nm => .ok (some nm)
     | .error e => .error (BuildError.valueError e)
   | _, _ => .ok none : Except BuildError (Option ℚ)).map
  (fun affinity_nM =>
    { target := row.target.getD ""
      affinity_nM := affinity_nM
      action := row.action.getD ""
      evidence := row.evidence.getD 0
      source := row.source.getD "" })

/-- `_build_from_seed`, parameterised by the seed database (a process-wide
read-only table in Python). -/
def build_from_seed (seed_db : List (String × List SeedRow)) (name : String) :
    Except BuildError NTDrugProfile :=
  let normalized := normalize_name name
  let rows := (seed_db.lookup normalized).getD []
  (rows.mapM seed_row_interaction).map
  (fun interactions =>
    { name := normalized
      interactions := interactions
      provenance :=
        [("builder", .pstr "neurothera_map.drug.build_drug_profile"),
         ("normalized_name", .pstr normalized),
         ("mode", .pstr "seed"),
         ("seed_db_hit", .pbool (seed_db.lookup normalized).isSome)] })

/-- The `.value` string of each `InteractionType` enum member. -/
def InteractionType.valueStr : InteractionType → String
  | .agonist => "agonist"
  | .antagonist => "antagonist"
  | .partialAgonist => "partial_agonist"
  | .inverseAgonist => "inverse_agonist"
  | .allostericModulator => "allosteric_modulator"
  | .inhibitor => "inhibitor"
  | .blocker => "blocker"
  | .activator => "activator"
  | .unknown => "unknown"

/-- `_convert_drug_profile`: map an ingestion `DrugProfile` to the
neurothera format. -/
def convert_drug_profile (dp : DrugProfile) : NTDrugProfile :=
  { name := pyLower dp.common_name
    interactions :=
      dp.interactions.map (fun i =>
        { target := i.target_gene_symbol
          affinity_nM := i.get_best_potency_nm
          action := i.interaction_type.valueStr
          evidence := i.evidence_score.getD 0
          source :=
            match i.source_database with
            | some s => if s = "" then "ingestion" else s
            | none => "ingestion" })
    provenance :=
      [("builder", .pstr "neurothera_map.drug.build_drug_profile"),
       ("normalized_name", .pstr (pyLower dp.common_name)),
       ("mode", .pstr "ingest"),
       ("source_databases", .pstrs dp.source_databases)]
      ++ (match dp.chembl_id with
          | some s => if s = "" then [] else [("chembl_id", ProvVal.pstr s)]
          | none => [])
      ++ (match dp.iuphar_ligand_id with
          | some n => if n = 0 then [] else [("iuphar_ligand_id", ProvVal.pint n)]
          | none => []) }

/-- Outcome of the attempted live ingestion: the import fails, the loader
finds nothing, or a profile is returned. -/
inductive IngestOutcome where
  | unavailable
  | notFound
  | found (dp : DrugProfile)
deriving DecidableEq

/-- The auto-mode fallback: the seed result with its provenance annotated
in place. -/
def fallback_to_seed (seed_db : List (String × List SeedRow)) (name : String) :
    Except BuildError NTDrugProfile :=
  (build_from_seed seed_db name).map (fun profile =>
    { name := profile.name
      interactions := profile.interactions
      provenance :=
        dictSet
          (dictSet (dictSet profile.provenance "mode" (.pstr "auto"))
            "ingestion_attempted" (.pbool true))
          "ingestion_available" (.pbool false) })

/-- `build_drug_profile`, with the live-ingestion boundary abstracted into
an `IngestOutcome`. -/
def build_drug_profile (seed_db : List (String × List SeedRow))
    (outcome : IngestOutcome) (name : String) (mode : String) :
    Except BuildError NTDrugProfile :=
  if mode = "seed" then build_from_seed seed_db name
  else if mode = "ingest" ∨ mode = "auto" then
    match outcome with
    | .found dp => .ok (convert_drug_profile dp)
    | .notFound =>
      if mode = "ingest" then
        .error (.runtimeError ("Drug \x27" ++ name
          ++ "\x27 not found in ingestion databases. Try mode=\x27seed\x27 for offline fallback or check drug name spelling."))
      else fallback_to_seed seed_db name
    | .unavailable =>
      if mode = "ingest" then
        .error (.importError "Cannot use mode=\x27ingest\x27: /drug module is not available. The drug ingestion system requires the \x27drug\x27 package to be properly installed.")
      else fallback_to_seed seed_db name
  else
    .error (.valueError ("Invalid mode: " ++ mode
      ++ ". Must be \x27auto\x27, \x27seed\x27, or \x27ingest\x27."))

/-! ## Spec-side definitions for the ranking claim (C3)

The claim sends only a missing best potency to infinity; a finite best
potency of `0` keeps its value. -/

/-- The sort key as the claim describes it. -/
def specPotencyKey (i : TargetInteraction) : WithTop ℚ :=
  match i.get_best_potency_nm with
  | none => ⊤
  | some v => (v : WithTop ℚ)

/-- Claim-side comparison for the ranking. -/
def specPotencyLe (a b : TargetInteraction) : Prop :=
  specPotencyKey a ≤ specPotencyKey b

instance : DecidableRel specPotencyLe := fun a b =>
  inferInstanceAs (Decidable (specPotencyKey a ≤ specPotencyKey b))

/-! ## Spec-side definitions for the merge claim (C2) -/

/-- All contributions for one target, per the claim: the tagged
interactions whose target gene symbol equals `t`, in input order. -/
def contributionsFor (profiles : List DrugProfile) (t : String) :
    List (TargetInteraction × String) :=
  (taggedInteractions profiles).filter (fun x => x.1.target_gene_symbol = t)

/-- The evidence key of a contribution, missing score read as `0`. -/
def evidenceKey (x : TargetInteraction × String) : ℚ :=
  x.1.evidence_score.getD 0

/-- The selection rule as the claim describes it: the first IUPHAR-tagged
contribution when the flag is set and one exists, otherwise the earliest
contribution attaining the maximal evidence score. -/
def spec_select (prefer_iuphar : Bool)
    (g : List (TargetInteraction × String)) : Option TargetInteraction :=
  if prefer_iuphar ∧ g.any (fun x => x.2 = "IUPHAR") then
    ((g.filter (fun x => x.2 = "IUPHAR")).map Prod.fst).head?
  else
    match (g.map evidenceKey).max? with
    | none => none
    | some mx => (g.find? (fun x => evidenceKey x = mx)).map Prod.fst

/-! ## Spec-side classifier (C7) -/

/-- The classifier as the claim words it, with explicit negative
conditions instead of the nested `elif` chain. -/
def classify_spec (s : String) : InteractionType :=
  let l := pyLower s
  if strContains l "antagonist" then .antagonist
  else if strContains l "agonist" && strContains l "partial" then .partialAgonist
  else if strContains l "agonist" && strContains l "inverse" then .inverseAgonist
  else if strContains l "agonist" then .agonist
  else if strContains l "inhibitor" || strContains l "inhibit" then .inhibitor
  else if strContains l "blocker" || strContains l "block" then .blocker
  else if strContains l "modulator" then .allostericModulator
  else .unknown

/-- C7: the free-text interaction classifier performs lower-cased substring
matching with the claimed precedence (antagonist before agonist, partial
and inverse only within an agonist match, then inhibitor, blocker,
modulator, else unknown); in particular "Competitive antagonist" is an
antagonist and "Partial agonist" a partial agonist. -/
theorem classifier_matches_spec :
    (∀ s, iuphar_parse_interaction_type s = classify_spec s)
    ∧ iuphar_parse_interaction_type "Competitive antagonist" = .antagonist
    ∧ iuphar_parse_interaction_type "Partial agonist" = .partialAgonist := by
  refine ⟨fun s => ?_, by decide, by decide⟩
  simp only [iuphar_parse_interaction_type, classify_spec]
  cases h1 : strContains (pyLower s) "antagonist" <;>
    cases h2 : strContains (pyLower s) "agonist" <;>
      cases h3 : strContains (pyLower s) "partial" <;>
        cases h4 : strContains (pyLower s) "inverse" <;>
          simp [h1, h2, h3, h4]

/-! ## Unit-normalizer claim (C8) -/

/-- C8 counterexample: the claim says both normalizers recognise the
substring family of full spellings; but the ChEMBL normalizer knows no
full spellings ("micromolar" falls through to its nanomolar default), and
the IUPHAR normalizer has no molar case at all ("M" maps to unknown). -/
theorem unit_normalizer_counterexample :
    chembl_parse_potency_unit (some "micromolar") = .nanomolar
    ∧ chembl_parse_potency_unit (some "micromolar") ≠ .micromolar
    ∧ iuphar_parse_potency_unit (some "M") = .unknown
    ∧ iuphar_parse_potency_unit (some "M") ≠ .molar := by
  decide

/-- C8 amended: case-insensitive substring recognition holds for the short
forms nm / um / mm / pm in both normalizers, but only the IUPHAR normalizer
recognises the full spellings (and the Greek-mu spelling of micromolar,
not the micro-sign one), only the ChEMBL normalizer maps the exact string
"m" to molar (the IUPHAR normalizer never yields molar), and on absent,
empty or unrecognised input the ChEMBL normalizer defaults to nanomolar
(so it never yields unknown) while the IUPHAR one defaults to unknown. -/
theorem unit_normalizer_behaviour :
    (∀ u, chembl_parse_potency_unit u ≠ .unknown)
    ∧ (∀ u, iuphar_parse_potency_unit u ≠ .molar)
    ∧ chembl_parse_potency_unit none = .nanomolar
    ∧ chembl_parse_potency_unit (some "") = .nanomolar
    ∧ chembl_parse_potency_unit (some "xyz") = .nanomolar
    ∧ iuphar_parse_potency_unit none = .unknown
    ∧ iuphar_parse_potency_unit (some "") = .unknown
    ∧ iuphar_parse_potency_unit (some "xyz") = .unknown
    ∧ chembl_parse_potency_unit (some "nM") = .nanomolar
    ∧ chembl_parse_potency_unit (some "NM") = .nanomolar
    ∧ chembl_parse_potency_unit (some "uM") = .micromolar
    ∧ chembl_parse_potency_unit (some "UM") = .micromolar
    ∧ chembl_parse_potency_unit (some "mM") = .millimolar
    ∧ chembl_parse_potency_unit (some "pM") = .picomolar
    ∧ chembl_parse_potency_unit (some "M") = .molar
    ∧ chembl_parse_potency_unit (some "m") = .molar
    ∧ chembl_parse_potency_unit (some "nanomolar") = .nanomolar
    ∧ chembl_parse_potency_unit (some "millimolar") = .nanomolar
    ∧ chembl_parse_potency_unit (some "picomolar") = .nanomolar
    ∧ chembl_parse_potency_unit (some "µM") = .nanomolar
    ∧ iuphar_parse_potency_unit (some "nM") = .nanomolar
    ∧ iuphar_parse_potency_unit (some "NM") = .nanomolar
    ∧ iuphar_parse_potency_unit (some "NanoMolar") = .nanomolar
    ∧ iuphar_parse_potency_unit (some "uM") = .micromolar
    ∧ iuphar_parse_potency_unit (some "micromolar") = .micromolar
    ∧ iuphar_parse_potency_unit (some "μM") = .micromolar
    ∧ iuphar_parse_potency_unit (some "µM") = .unknown
    ∧ iuphar_parse_potency_unit (some "mM") = .millimolar
    ∧ iuphar_parse_potency_unit (some "millimolar") = .millimolar
    ∧ iuphar_parse_potency_unit (some "pM") = .picomolar
    ∧ iuphar_parse_potency_unit (some "picomolar") = .picomolar := by
  refine ⟨fun u => ?_, fun u => ?_, ?_⟩
  · cases u with
    | none => decide
    | some s =>
      simp only [chembl_parse_potency_unit]
      split_ifs <;> simp
  · cases u with
    | none => decide
    | some s =>
      simp only [iuphar_parse_potency_unit]
      split_ifs <;> simp
  · decide

/-! ## Best-potency claim (C6) -/

/-- Fixture: the three-measurement interaction of the claim. -/
def interactionBase : TargetInteraction :=
  { target_gene_symbol := "HTR2A",
    potency_measures :=
      [⟨100, .nanomolar, "Ki", none, none⟩,
       ⟨50, .nanomolar, "Ki", none, none⟩,
       ⟨200, .nanomolar, "Ki", none, none⟩] }

/-- Fixture: the same interaction with an unknown-unit measurement added. -/
def interactionWithUnknown : TargetInteraction :=
  { interactionBase with
    potency_measures := interactionBase.potency_measures ++ [⟨70, .unknown, "Ki", none, none⟩] }

/-- Fixture: an interaction with no measurements. -/
def interactionNoMeasures : TargetInteraction :=
  { target_gene_symbol := "HTR2A" }

lemma reduceOption_map_eq_nil_iff (l : List PotencyMeasure) :
    ((l.map PotencyMeasure.to_nanomolar).reduceOption = []) ↔
      ∀ m ∈ l, m.unit = .unknown := by
  induction l with
  | nil => simp
  | cons a l ih =>
    cases h : a.unit <;>
      simp [PotencyMeasure.to_nanomolar, h, List.reduceOption_cons_of_some,
        List.reduceOption_cons_of_none, ih]

/-- C6: the best potency in nanomolar is the minimum of the measurements
converted through the fixed table, unknown-unit measurements convert to
none and are excluded, an interaction with no convertible measurement has
an absent best potency, and the concrete example lists behave as claimed. -/
theorem best_potency_characterisation :
    (∀ m : PotencyMeasure,
        m.to_nanomolar =
          if m.unit = .unknown then none
          else some (m.value * spec_conversion_factor m.unit))
    ∧ (∀ i : TargetInteraction,
        (i.get_best_potency_nm = none ↔ ∀ m ∈ i.potency_measures, m.unit = .unknown))
    ∧ (∀ i : TargetInteraction, ∀ q : ℚ,
        i.get_best_potency_nm = some q →
          (∃ m ∈ i.potency_measures, m.to_nanomolar = some q)
          ∧ ∀ m ∈ i.potency_measures, ∀ v, m.to_nanomolar = some v → q ≤ v)
    ∧ interactionBase.get_best_potency_nm = some 50
    ∧ interactionWithUnknown.get_best_potency_nm = some 50
    ∧ interactionNoMeasures.get_best_potency_nm = none := by
  refine ⟨fun m => ?_, fun i => ?_, fun i q h => ?_, ?_, ?_, ?_⟩
  · cases h : m.unit <;> simp [PotencyMeasure.to_nanomolar, spec_conversion_factor, h]
  · rw [TargetInteraction.get_best_potency_nm, List.min?_eq_none_iff,
      reduceOption_map_eq_nil_iff]
  · rw [TargetInteraction.get_best_potency_nm] at h
    haveI : Std.Antisymm (fun x1 x2 : ℚ => x1 ≤ x2) := ⟨@fun a b h1 h2 => le_antisymm h1 h2⟩
    rw [List.min?_eq_some_iff (fun a : ℚ => le_refl a)
      (fun a b : ℚ => min_choice a b) (fun a b c : ℚ => le_min_iff)] at h
    obtain ⟨hmem, hle⟩ := h
    constructor
    · obtain ⟨m, hm, hconv⟩ := List.mem_map.mp (List.reduceOption_mem_iff.mp hmem)
      exact ⟨m, hm, hconv⟩
    · intro m hm v hv
      exact hle v (List.reduceOption_mem_iff.mpr
        (hv ▸ List.mem_map_of_mem PotencyMeasure.to_nanomolar hm))
  · norm_num [interactionBase, TargetInteraction.get_best_potency_nm,
      PotencyMeasure.to_nanomolar, List.reduceOption, List.min?,
      List.filterMap_cons, List.foldl, min_def]
  · norm_num [interactionWithUnknown, interactionBase, TargetInteraction.get_best_potency_nm,
      PotencyMeasure.to_nanomolar, List.reduceOption, List.min?,
      List.filterMap_cons, List.foldl, min_def]
  · norm_num [interactionNoMeasures, TargetInteraction.get_best_potency_nm,
      List.reduceOption, List.min?]

/-! ## Ranking claim (C3) -/

/-- Fixture: an interaction whose best convertible potency is exactly 0. -/
def interactionZero : TargetInteraction :=
  { target_gene_symbol := "ZERO", potency_measures := [⟨0, .nanomolar, "Ki", none, none⟩] }

/-- Fixture: an interaction with best potency 5 nM. -/
def interactionFive : TargetInteraction :=
  { target_gene_symbol := "FIVE", potency_measures := [⟨5, .nanomolar, "Ki", none, none⟩] }

/-- Fixture: a profile holding the zero-potency and the 5 nM interaction. -/
def profileZeroFive : DrugProfile :=
  { common_name := "drugX", interactions := [interactionZero, interactionFive] }

/-- C3 counterexample: with a zero-valued and a 5 nM interaction, the code
sorts the zero-potency interaction to the end (its falsy best potency is
replaced by infinity), while the claim orders it first. -/
theorem ranking_zero_potency_counterexample :
    profileZeroFive.get_primary_targets 2 = [interactionFive, interactionZero]
    ∧ (List.insertionSort specPotencyLe profileZeroFive.interactions).take 2
        = [interactionZero, interactionFive]
    ∧ ([interactionFive, interactionZero] : List TargetInteraction)
        ≠ [interactionZero, interactionFive] := by
  refine ⟨?_, ?_, ?_⟩
  · norm_num [DrugProfile.get_primary_targets, profileZeroFive, List.insertionSort,
      List.orderedInsert, potencyLe, pyPotencyKey, interactionZero, interactionFive,
      TargetInteraction.get_best_potency_nm, PotencyMeasure.to_nanomolar,
      List.reduceOption, List.min?, List.filterMap_cons, List.foldl]
  · norm_num [profileZeroFive, List.insertionSort, List.orderedInsert,
      specPotencyLe, specPotencyKey, interactionZero, interactionFive,
      TargetInteraction.get_best_potency_nm, PotencyMeasure.to_nanomolar,
      List.reduceOption, List.min?, List.filterMap_cons, List.foldl]
  · simp [interactionZero, interactionFive]

lemma filter_orderedInsert_key (a : TargetInteraction) (l : List TargetInteraction)
    (k : WithTop ℚ) :
    ((l.orderedInsert potencyLe a).filter (fun x => pyPotencyKey x = k))
      = if pyPotencyKey a = k then
          a :: l.filter (fun x => pyPotencyKey x = k)
        else l.filter (fun x => pyPotencyKey x = k) := by
  induction l with
  | nil => simp [List.orderedInsert, List.filter_cons]
  | cons b l ih =>
    by_cases hab : potencyLe a b
    · rw [List.orderedInsert_of_le _ _ hab]
      simp [List.filter_cons]
    · have hba : pyPotencyKey b < pyPotencyKey a := lt_of_not_le hab
      simp only [List.orderedInsert, if_neg hab, List.filter_cons, ih]
      by_cases hak : pyPotencyKey a = k
      · have hbk : ¬ pyPotencyKey b = k := by
          rw [← hak]; exact ne_of_lt hba
        simp [hak, hbk]
      · simp [hak]

lemma filter_insertionSort_key (l : List TargetInteraction) (k : WithTop ℚ) :
    ((List.insertionSort potencyLe l).filter (fun x => pyPotencyKey x = k))
      = l.filter (fun x => pyPotencyKey x = k) := by
  induction l with
  | nil => rfl
  | cons a l ih =>
    simp only [List.insertionSort, filter_orderedInsert_key, ih, List.filter_cons]
    by_cases hak : pyPotencyKey a = k <;> simp [hak]

/-- C3 amended: `get_primary_targets` is the stable ascending sort by best
potency truncated to `top_n`, where an interaction is sent to infinity not
only when it lacks a convertible potency but also when its best potency is
the falsy value 0; ties and equal keys preserve input order. -/
theorem primary_target_ranking_amended (p : DrugProfile) (n : ℕ) :
    p.get_primary_targets n = (List.insertionSort potencyLe p.interactions).take n
    ∧ (List.insertionSort potencyLe p.interactions).Sorted potencyLe
    ∧ (List.insertionSort potencyLe p.interactions).Perm p.interactions
    ∧ (∀ k, ((List.insertionSort potencyLe p.interactions).filter
          (fun x => pyPotencyKey x = k))
        = p.interactions.filter (fun x => pyPotencyKey x = k))
    ∧ (∀ i : TargetInteraction,
        pyPotencyKey i = ⊤ ↔
          (i.get_best_potency_nm = none ∨ i.get_best_potency_nm = some 0)) := by
  refine ⟨rfl, List.sorted_insertionSort potencyLe p.interactions,
    List.perm_insertionSort potencyLe p.interactions,
    fun k => filter_insertionSort_key p.interactions k, fun i => ?_⟩
  unfold pyPotencyKey
  cases h : i.get_best_potency_nm with
  | none => simp
  | some v =>
    by_cases hv : v = 0 <;> simp [hv, WithTop.coe_ne_top]

/-! ## Seed-converter claim (C10) -/

deriving instance DecidableEq for Except

lemma mapM_error_of_mem {ε α β : Type} (f : α → Except ε β) (l : List α) (x : α)
    (hx : x ∈ l) (hf : ∀ y, f x ≠ .ok y) : ∃ e, l.mapM f = .error e := by
  induction l with
  | nil => cases hx
  | cons a l ih =>
    rw [List.mapM_cons]
    rcases List.mem_cons.mp hx with rfl | hmem
    · cases hfa : f x with
      | error e => exact ⟨e, rfl⟩
      | ok y => exact absurd hfa (hf y)
    · cases hfa : f a with
      | error e => exact ⟨e, rfl⟩
      | ok y =>
        obtain ⟨e, he⟩ := ih hmem
        exact ⟨e, by rw [he]; rfl⟩

/-- C10: every unit string whose trimmed lower-casing is outside the
supported set makes the seed-path converter raise `ValueError`, and such a
unit on a seed row (with an affinity present) makes seed-mode profile
building fail; in particular picomolar, molar and arbitrary strings are
rejected. -/
theorem seed_unit_converter_rejects_unknown (v : ℚ) (u : String)
    (hnorm : seed_unit_norm u ∉
      (["nm", "nanomolar", "um", "µm", "micromolar", "mm", "millimolar"] : List String)) :
    to_nM v u = .error ("Unsupported affinity unit: " ++ u)
    ∧ (∀ (db : List (String × List SeedRow)) (name : String) (row : SeedRow) (a : ℚ),
        row ∈ (db.lookup (normalize_name name)).getD [] →
        row.affinity = some a → row.unit = some u →
        ∃ e, build_from_seed db name = .error e)
    ∧ to_nM 1 "pM" = .error "Unsupported affinity unit: pM"
    ∧ to_nM 1 "M" = .error "Unsupported affinity unit: M"
    ∧ build_from_seed
        [("caffeine",
          [{ target := some "ADORA1", affinity := some 1, unit := some "pM" }])]
        "caffeine"
      = .error (.valueError "Unsupported affinity unit: pM") := by
  simp only [List.mem_cons, List.not_mem_nil, or_false, not_or] at hnorm
  obtain ⟨h1, h2, h3, h4, h5, h6, h7⟩ := hnorm
  have herr : ∀ w : ℚ, to_nM w u = .error ("Unsupported affinity unit: " ++ u) := by
    intro w
    simp [to_nM, h1, h2, h3, h4, h5, h6, h7]
  refine ⟨herr v, ?_, by decide, by decide, by decide⟩
  intro db name row a hrow haff hunit
  have hfail : ∀ y, seed_row_interaction row ≠ .ok y := by
    intro y
    rw [seed_row_interaction, haff, hunit]
    simp only [herr a, Except.map]
    simp
  obtain ⟨e, he⟩ := mapM_error_of_mem seed_row_interaction _ row hrow hfail
  exact ⟨e, by rw [build_from_seed, he]; simp [Except.map]⟩


/-- C10 witness: instantiated at value 1 and unit "pM". -/
theorem seed_unit_converter_rejects_unknown_witness :
    (seed_unit_norm "pM" ∉
      (["nm", "nanomolar", "um", "µm", "micromolar", "mm", "millimolar"] : List String))
    ∧ (to_nM 1 "pM" = .error ("Unsupported affinity unit: " ++ "pM")
      ∧ (∀ (db : List (String × List SeedRow)) (name : String) (row : SeedRow) (a : ℚ),
          row ∈ (db.lookup (normalize_name name)).getD [] →
          row.affinity = some a → row.unit = some "pM" →
          ∃ e, build_from_seed db name = .error e)
      ∧ to_nM 1 "pM" = .error "Unsupported affinity unit: pM"
      ∧ to_nM 1 "M" = .error "Unsupported affinity unit: M"
      ∧ build_from_seed
          [("caffeine",
            [{ target := some "ADORA1", affinity := some 1, unit := some "pM" }])]
          "caffeine"
        = .error (.valueError "Unsupported affinity unit: pM")) :=
  ⟨by decide, seed_unit_converter_rejects_unknown 1 "pM" (by decide)⟩

/-! ## Builder-mode claims (C5, C4) -/

/-- C5: in ingest mode an unconstructible integration raises the
configuration `ImportError` naming the missing drug package, a not-found
result raises the `RuntimeError` naming the drug, neither falls back to
seed data, and any mode outside seed / ingest / auto raises `ValueError`. -/
theorem ingest_mode_errors (db : List (String × List SeedRow)) (name : String)
    (outcome : IngestOutcome) (mode : String)
    (hmode : mode ≠ "seed" ∧ mode ≠ "ingest" ∧ mode ≠ "auto") :
    build_drug_profile db .unavailable name "ingest"
      = .error (.importError "Cannot use mode=\x27ingest\x27: /drug module is not available. The drug ingestion system requires the \x27drug\x27 package to be properly installed.")
    ∧ build_drug_profile db .notFound name "ingest"
      = .error (.runtimeError ("Drug \x27" ++ name
          ++ "\x27 not found in ingestion databases. Try mode=\x27seed\x27 for offline fallback or check drug name spelling."))
    ∧ build_drug_profile db outcome name mode
      = .error (.valueError ("Invalid mode: " ++ mode
          ++ ". Must be \x27auto\x27, \x27seed\x27, or \x27ingest\x27.")) := by
  obtain ⟨h1, h2, h3⟩ := hmode
  refine ⟨by simp [build_drug_profile], by simp [build_drug_profile], ?_⟩
  cases outcome <;> simp [build_drug_profile, h1, h2, h3]

lemma lookup_dictSet_self (d : List (String × ProvVal)) (k : String) (v : ProvVal) :
    (dictSet d k v).lookup k = some v := by
  induction d with
  | nil => simp [dictSet]
  | cons a d ih =>
    obtain ⟨k', v'⟩ := a
    by_cases h : k' = k
    · simp [dictSet, h]
    · simp [dictSet, h, List.lookup, ih, beq_false_of_ne (Ne.symm h)]

lemma lookup_dictSet_ne (d : List (String × ProvVal)) (k k' : String) (v : ProvVal)
    (h : k' ≠ k) : (dictSet d k v).lookup k' = d.lookup k' := by
  induction d with
  | nil => simp [dictSet, List.lookup, beq_false_of_ne h]
  | cons a d ih =>
    obtain ⟨k0, v0⟩ := a
    by_cases h0 : k0 = k
    · subst h0
      simp [dictSet, List.lookup, beq_false_of_ne h, beq_false_of_ne (h ∘ Eq.symm ∘ Eq.symm)]
    · by_cases h1 : k0 = k'
      · subst h1
        simp [dictSet, h0, List.lookup]
      · simp [dictSet, h0, List.lookup, beq_false_of_ne (Ne.symm h1), ih]

/-- C4: in auto mode, when ingestion is unconstructible or finds nothing,
the result is the seed profile for the same name (same name, identical
interaction content) with provenance recording mode=auto,
ingestion_attempted=true and ingestion_available=false. -/
theorem auto_fallback_provenance (db : List (String × List SeedRow)) (name : String)
    (outcome : IngestOutcome)
    (houtcome : outcome = .unavailable ∨ outcome = .notFound)
    (ps : NTDrugProfile) (hseed : build_from_seed db name = .ok ps) :
    ∃ p, build_drug_profile db outcome name "auto" = .ok p
      ∧ p.interactions = ps.interactions
      ∧ p.name = ps.name
      ∧ p.provenance.lookup "mode" = some (.pstr "auto")
      ∧ p.provenance.lookup "ingestion_attempted" = some (.pbool true)
      ∧ p.provenance.lookup "ingestion_available" = some (.pbool false) := by
  have hbuild : build_drug_profile db outcome name "auto" = fallback_to_seed db name := by
    rcases houtcome with rfl | rfl <;> simp [build_drug_profile]
  rw [hbuild, fallback_to_seed, hseed]
  refine ⟨_, rfl, rfl, rfl, ?_, ?_, ?_⟩
  · rw [lookup_dictSet_ne _ _ _ _ (by decide), lookup_dictSet_ne _ _ _ _ (by decide),
      lookup_dictSet_self]
  · rw [lookup_dictSet_ne _ _ _ _ (by decide), lookup_dictSet_self]
  · rw [lookup_dictSet_self]


/-- C5 witness: instantiated at the mode string "bogus". -/
theorem ingest_mode_errors_witness :
    (("bogus" : String) ≠ "seed" ∧ ("bogus" : String) ≠ "ingest" ∧ ("bogus" : String) ≠ "auto")
    ∧ (build_drug_profile seed_db_default .unavailable "caffeine" "ingest"
        = .error (.importError "Cannot use mode=\x27ingest\x27: /drug module is not available. The drug ingestion system requires the \x27drug\x27 package to be properly installed.")
      ∧ build_drug_profile seed_db_default .notFound "caffeine" "ingest"
        = .error (.runtimeError ("Drug \x27" ++ "caffeine"
            ++ "\x27 not found in ingestion databases. Try mode=\x27seed\x27 for offline fallback or check drug name spelling."))
      ∧ build_drug_profile seed_db_default .notFound "caffeine" "bogus"
        = .error (.valueError ("Invalid mode: " ++ "bogus"
            ++ ". Must be \x27auto\x27, \x27seed\x27, or \x27ingest\x27."))) :=
  ⟨by decide, ingest_mode_errors seed_db_default "caffeine" .notFound "bogus" (by decide)⟩

/-- Fixture: the seed result for a name that is not in the seed database. -/
def seedMissProfile : NTDrugProfile :=
  { name := "aspirin"
    interactions := []
    provenance :=
      [("builder", .pstr "neurothera_map.drug.build_drug_profile"),
       ("normalized_name", .pstr "aspirin"),
       ("mode", .pstr "seed"),
       ("seed_db_hit", .pbool false)] }

/-- C4 witness: instantiated at the not-found outcome and a name outside
the seed database. -/
theorem auto_fallback_provenance_witness :
    ((IngestOutcome.notFound = IngestOutcome.unavailable
        ∨ IngestOutcome.notFound = IngestOutcome.notFound)
      ∧ build_from_seed seed_db_default "aspirin" = .ok seedMissProfile)
    ∧ (∃ p, build_drug_profile seed_db_default .notFound "aspirin" "auto" = .ok p
        ∧ p.interactions = seedMissProfile.interactions
        ∧ p.name = seedMissProfile.name
        ∧ p.provenance.lookup "mode" = some (.pstr "auto")
        ∧ p.provenance.lookup "ingestion_attempted" = some (.pbool true)
        ∧ p.provenance.lookup "ingestion_available" = some (.pbool false)) :=
  ⟨⟨Or.inr rfl, by decide⟩,
    auto_fallback_provenance seed_db_default "aspirin" .notFound (Or.inr rfl)
      seedMissProfile (by decide)⟩

/-! ## Merge idempotence claim (C9) -/

lemma mapAppend_not_mem {β : Type} (m : List (String × List β)) (k : String) (v : β)
    (h : k ∉ m.map Prod.fst) : mapAppend m k v = m ++ [(k, [v])] := by
  induction m with
  | nil => rfl
  | cons a m ih =>
    obtain ⟨k', vs⟩ := a
    simp only [List.map_cons, List.mem_cons, not_or] at h
    simp [mapAppend, Ne.symm h.1, ih h.2]

lemma foldl_mapAppend_nodup (pairs : List (TargetInteraction × String))
    (acc : List (String × List (TargetInteraction × String)))
    (hnd : (pairs.map (fun x => x.1.target_gene_symbol)).Nodup)
    (hdisj : ∀ x ∈ pairs, x.1.target_gene_symbol ∉ acc.map Prod.fst) :
    pairs.foldl (fun m iv => mapAppend m iv.1.target_gene_symbol iv) acc
      = acc ++ pairs.map (fun x => (x.1.target_gene_symbol, [x])) := by
  induction pairs generalizing acc with
  | nil => simp
  | cons x xs ih =>
    simp only [List.map_cons, List.nodup_cons] at hnd
    rw [List.foldl_cons, mapAppend_not_mem _ _ _ (hdisj x (List.mem_cons_self x xs)),
      ih (acc ++ [(x.1.target_gene_symbol, [x])]) hnd.2]
    · simp
    · intro y hy
      simp only [List.map_append, List.mem_append, not_or]
      refine ⟨hdisj y (List.mem_cons_of_mem x hy), ?_⟩
      have hmem : y.1.target_gene_symbol ∈ xs.map (fun x => x.1.target_gene_symbol) :=
        List.mem_map_of_mem _ hy
      simp only [List.map_cons, List.map_nil, List.mem_singleton]
      intro hcon
      exact hnd.1 (hcon ▸ hmem)

/-- C9 amended: merging a singleton profile list returns the same
interaction content provided the profile contains at most one interaction
per target gene symbol (the merge groups by exact symbol and keeps exactly
one interaction per group). -/
theorem merge_singleton_amended (prefer : Bool) (pA : DrugProfile)
    (hnd : (pA.interactions.map TargetInteraction.target_gene_symbol).Nodup)
    (hsrc : pA.source_databases ≠ []) :
    ∃ m, merge_profiles prefer [pA] = some m ∧ m.interactions = pA.interactions := by
  cases hp : pA.interactions with
  | nil =>
    refine ⟨_, by rw [merge_profiles], ?_⟩
    simp [buildTargetMap, taggedInteractions, hp]
  | cons i rest =>
    refine ⟨_, by rw [merge_profiles], ?_⟩
    have htag : taggedInteractions [pA]
        = pA.interactions.map (fun i => (i, pA.source_databases.headD "")) := by
      simp [taggedInteractions]
    have hmap : buildTargetMap [pA]
        = (pA.interactions.map (fun i => (i, pA.source_databases.headD ""))).map
            (fun x => (x.1.target_gene_symbol, [x])) := by
      rw [buildTargetMap, htag, foldl_mapAppend_nodup]
      · simp
      · simpa [Function.comp] using hnd
      · simp
    simp only [hmap, List.map_map, List.filterMap_map]
    have hall : ∀ l : List TargetInteraction,
        List.filterMap
          ((fun kg => chooseInteraction prefer kg.2)
            ∘ (fun x : TargetInteraction × String => (x.1.target_gene_symbol, [x]))
            ∘ (fun i => (i, pA.source_databases.headD ""))) l = l := by
      intro l
      induction l with
      | nil => rfl
      | cons a l ih =>
        have hfa : ((fun kg => chooseInteraction prefer kg.2)
            ∘ (fun x : TargetInteraction × String => (x.1.target_gene_symbol, [x]))
            ∘ (fun i => (i, pA.source_databases.headD ""))) a = some a := rfl
        simp only [List.filterMap_cons, hfa, ih]
    rw [hall pA.interactions, hp]

/-- Fixture: duplicate-target interaction without evidence score. -/
def dupInteractionA : TargetInteraction :=
  { target_gene_symbol := "HTR2A" }

/-- Fixture: duplicate-target interaction with evidence score 1. -/
def dupInteractionB : TargetInteraction :=
  { target_gene_symbol := "HTR2A", target_name := some "dup", evidence_score := some 1 }

/-- Fixture: a single-source profile with two interactions for one target. -/
def dupTargetProfile : DrugProfile :=
  { common_name := "drugY", interactions := [dupInteractionA, dupInteractionB],
    source_databases := ["ChEMBL"] }

/-- C9 counterexample: a profile holding two interactions for the same
target is collapsed by the singleton merge, so the merged interaction
content differs from the input. -/
theorem merge_singleton_counterexample :
    (merge_profiles true [dupTargetProfile]).map DrugProfile.interactions
      = some [dupInteractionB]
    ∧ (merge_profiles true [dupTargetProfile]).map DrugProfile.interactions
      ≠ some dupTargetProfile.interactions := by
  decide

/-- Fixture: a single-source profile with two distinct targets. -/
def twoTargetProfile : DrugProfile :=
  { common_name := "drugZ",
    interactions := [{ target_gene_symbol := "ADORA1" }, { target_gene_symbol := "ADORA2A" }],
    source_databases := ["IUPHAR"] }

/-- C9 witness: instantiated at a two-target single-source profile. -/
theorem merge_singleton_amended_witness :
    ((twoTargetProfile.interactions.map TargetInteraction.target_gene_symbol).Nodup
      ∧ twoTargetProfile.source_databases ≠ [])
    ∧ (∃ m, merge_profiles true [twoTargetProfile] = some m
        ∧ m.interactions = twoTargetProfile.interactions) :=
  ⟨⟨by decide, by decide⟩,
    merge_singleton_amended true twoTargetProfile (by decide) (by decide)⟩

/-! ## Merge selection claim (C2): dictionary lemmas -/

lemma lookup_mapAppend_self (m : List (String × List (TargetInteraction × String)))
    (k : String) (v : TargetInteraction × String) :
    (mapAppend m k v).lookup k = some ((m.lookup k).getD [] ++ [v]) := by
  induction m with
  | nil => simp [mapAppend, List.lookup]
  | cons a m ih =>
    obtain ⟨k', vs⟩ := a
    by_cases h : k' = k
    · subst h
      simp [mapAppend, List.lookup]
    · simp [mapAppend, h, List.lookup, beq_false_of_ne (Ne.symm h), ih]

lemma lookup_mapAppend_ne (m : List (String × List (TargetInteraction × String)))
    (k k' : String) (v : TargetInteraction × String) (h : k' ≠ k) :
    (mapAppend m k v).lookup k' = m.lookup k' := by
  induction m with
  | nil => simp [mapAppend, List.lookup, beq_false_of_ne h]
  | cons a m ih =>
    obtain ⟨k0, vs⟩ := a
    by_cases h0 : k0 = k
    · subst h0
      simp [mapAppend, List.lookup, beq_false_of_ne h]
    · by_cases h1 : k0 = k'
      · subst h1
        simp [mapAppend, h0, List.lookup]
      · simp [mapAppend, h0, List.lookup, beq_false_of_ne (Ne.symm h1), ih]

lemma map_fst_mapAppend (m : List (String × List (TargetInteraction × String)))
    (k : String) (v : TargetInteraction × String) :
    (mapAppend m k v).map Prod.fst
      = if k ∈ m.map Prod.fst then m.map Prod.fst else m.map Prod.fst ++ [k] := by
  induction m with
  | nil => simp [mapAppend]
  | cons a m ih =>
    obtain ⟨k', vs⟩ := a
    by_cases h : k' = k
    · subst h
      simp [mapAppend]
    · simp only [mapAppend, if_neg h, List.map_cons, ih]
      by_cases hk : k ∈ m.map Prod.fst
      · simp [hk, Ne.symm h]
      · simp [hk, Ne.symm h]

/-- The dictionary fold of `_merge_profiles`, over an arbitrary pair list. -/
def buildMapFrom (pairs : List (TargetInteraction × String)) :
    List (String × List (TargetInteraction × String)) :=
  pairs.foldl (fun m iv => mapAppend m iv.1.target_gene_symbol iv) []

lemma buildTargetMap_eq (profiles : List DrugProfile) :
    buildTargetMap profiles = buildMapFrom (taggedInteractions profiles) := rfl

lemma buildMapFrom_invariant (pairs : List (TargetInteraction × String)) :
    (∀ k, (buildMapFrom pairs).lookup k
        = (if pairs.filter (fun x => x.1.target_gene_symbol = k) = [] then none
           else some (pairs.filter (fun x => x.1.target_gene_symbol = k))))
    ∧ ((buildMapFrom pairs).map Prod.fst).Nodup := by
  suffices h : ∀ (xs q : List (TargetInteraction × String))
      (m : List (String × List (TargetInteraction × String))),
      (∀ k, m.lookup k
          = (if q.filter (fun x => x.1.target_gene_symbol = k) = [] then none
             else some (q.filter (fun x => x.1.target_gene_symbol = k))))
      → (m.map Prod.fst).Nodup
      → (∀ k, (xs.foldl (fun m iv => mapAppend m iv.1.target_gene_symbol iv) m).lookup k
            = (if (q ++ xs).filter (fun x => x.1.target_gene_symbol = k) = [] then none
               else some ((q ++ xs).filter (fun x => x.1.target_gene_symbol = k))))
        ∧ (((xs.foldl (fun m iv => mapAppend m iv.1.target_gene_symbol iv) m).map
              Prod.fst).Nodup) by
    have hmain := h pairs [] [] (fun k => by simp [List.lookup]) (by simp)
    simpa [buildMapFrom] using hmain
  intro xs
  induction xs with
  | nil =>
    intro q m h1 h2
    simp only [List.foldl_nil, List.append_nil]
    exact ⟨h1, h2⟩
  | cons x xs ih =>
    intro q m h1 h2
    simp only [List.foldl_cons]
    have hstep1 : ∀ k, (mapAppend m x.1.target_gene_symbol x).lookup k
        = (if (q ++ [x]).filter (fun z => z.1.target_gene_symbol = k) = [] then none
           else some ((q ++ [x]).filter (fun z => z.1.target_gene_symbol = k))) := by
      intro k
      by_cases hk : k = x.1.target_gene_symbol
      · subst hk
        rw [lookup_mapAppend_self, h1]
        by_cases hq : q.filter
            (fun z => z.1.target_gene_symbol = x.1.target_gene_symbol) = [] <;>
          simp [List.filter_append, hq, List.filter_cons]
      · rw [lookup_mapAppend_ne _ _ _ _ hk, h1 k]
        have heq : (q ++ [x]).filter (fun z => z.1.target_gene_symbol = k)
            = q.filter (fun z => z.1.target_gene_symbol = k) := by
          simp [List.filter_append, List.filter_cons, Ne.symm hk]
        rw [heq]
    have hstep2 : ((mapAppend m x.1.target_gene_symbol x).map Prod.fst).Nodup := by
      rw [map_fst_mapAppend]
      by_cases hk : x.1.target_gene_symbol ∈ m.map Prod.fst
      · simpa [hk] using h2
      · rw [if_neg hk, List.nodup_append]
        exact ⟨h2, List.nodup_singleton _, by simpa using hk⟩
    have hrest := ih (q ++ [x]) _ hstep1 hstep2
    simp only [List.append_assoc, List.singleton_append] at hrest
    exact hrest

lemma foldl_max_spec (a : ℚ) (l : List ℚ) :
    a ≤ l.foldl max a ∧ ∀ b ∈ l, b ≤ l.foldl max a := by
  induction l generalizing a with
  | nil => exact ⟨le_refl a, by simp⟩
  | cons c l ih =>
    obtain ⟨h1, h2⟩ := ih (max a c)
    refine ⟨le_trans (le_max_left a c) h1, ?_⟩
    intro b hb
    rcases List.mem_cons.mp hb with rfl | hb
    · exact le_trans (le_max_right a b) h1
    · exact h2 b hb

/-- Python `max(x :: xs, key)` computes the first element attaining the
maximal key: the fold keeps the incumbent unless strictly beaten. -/
lemma pyMax_eq_find_max (xs : List (TargetInteraction × String))
    (x : TargetInteraction × String) :
    evidenceKey (xs.foldl
        (fun best y => if best.1.evidence_score.getD 0 < y.1.evidence_score.getD 0
          then y else best) x)
      = (xs.map evidenceKey).foldl max (evidenceKey x)
    ∧ (x :: xs).find?
        (fun z => evidenceKey z = (xs.map evidenceKey).foldl max (evidenceKey x))
      = some (xs.foldl
          (fun best y => if best.1.evidence_score.getD 0 < y.1.evidence_score.getD 0
            then y else best) x) := by
  induction xs generalizing x with
  | nil =>
    refine ⟨rfl, ?_⟩
    simp [List.find?, evidenceKey]
  | cons y ys ih =>
    have hkey : evidenceKey (if x.1.evidence_score.getD 0 < y.1.evidence_score.getD 0
        then y else x) = max (evidenceKey x) (evidenceKey y) := by
      rcases lt_or_ge (x.1.evidence_score.getD 0) (y.1.evidence_score.getD 0) with hlt | hge
      · rw [if_pos hlt]
        exact (max_eq_right (le_of_lt hlt)).symm
      · rw [if_neg (not_lt.mpr hge)]
        exact (max_eq_left hge).symm
    obtain ⟨ih1, ih2⟩ := ih (if x.1.evidence_score.getD 0 < y.1.evidence_score.getD 0
      then y else x)
    have hM : (ys.map evidenceKey).foldl max
        (evidenceKey (if x.1.evidence_score.getD 0 < y.1.evidence_score.getD 0
          then y else x))
        = ((y :: ys).map evidenceKey).foldl max (evidenceKey x) := by
      rw [hkey]
      simp [List.foldl_cons, evidenceKey]
    constructor
    · rw [List.foldl_cons, ih1, hM]
    · rw [List.foldl_cons]
      set M := ((y :: ys).map evidenceKey).foldl max (evidenceKey x) with hMdef
      have hxM : evidenceKey x ≤ M := by
        have := (foldl_max_spec (evidenceKey x) ((y :: ys).map evidenceKey)).1
        exact this
      have hyM : evidenceKey y ≤ M := by
        have := (foldl_max_spec (evidenceKey x) ((y :: ys).map evidenceKey)).2
        exact this (evidenceKey y) (by simp)
      rw [hM] at ih2
      rcases lt_or_ge (x.1.evidence_score.getD 0) (y.1.evidence_score.getD 0) with hlt | hge
      · have hxy : evidenceKey x < evidenceKey y := hlt
        have hxne : ¬ (evidenceKey x = M) := by
          intro hcon
          exact absurd (lt_of_lt_of_le hxy hyM) (by rw [hcon]; exact lt_irrefl M)
        rw [if_pos hlt] at ih2 ⊢
        rw [List.find?_cons_of_neg _ (by simpa using hxne)]
        exact ih2
      · rw [if_neg (not_lt.mpr hge)] at ih2 ⊢
        by_cases hxM' : evidenceKey x = M
        · rw [List.find?_cons_of_pos _ (by simpa using hxM')]
          rw [List.find?_cons_of_pos _ (by simpa using hxM')] at ih2
          exact ih2
        · have hyne : ¬ (evidenceKey y = M) := by
            intro hcon
            exact hxM' (le_antisymm hxM (hcon ▸ hge))
          rw [List.find?_cons_of_neg _ (by simpa using hxM'),
            List.find?_cons_of_neg _ (by simpa using hyne)]
          rw [List.find?_cons_of_neg _ (by simpa using hxM')] at ih2
          exact ih2

lemma pyMaxByEvidence_mem (x : TargetInteraction × String)
    (xs : List (TargetInteraction × String)) :
    xs.foldl (fun best y => if best.1.evidence_score.getD 0 < y.1.evidence_score.getD 0
      then y else best) x ∈ x :: xs := by
  induction xs generalizing x with
  | nil => exact List.mem_singleton_self x
  | cons y ys ih =>
    rw [List.foldl_cons]
    have hmem := ih (if x.1.evidence_score.getD 0 < y.1.evidence_score.getD 0 then y else x)
    rcases List.mem_cons.mp hmem with heq | hmem'
    · rw [heq]
      by_cases h : x.1.evidence_score.getD 0 < y.1.evidence_score.getD 0
      · simp [h]
      · simp [h]
    · exact List.mem_cons_of_mem x (List.mem_cons_of_mem y hmem')

lemma any_iuphar_iff_filter (g : List (TargetInteraction × String)) :
    (g.any (fun x => x.2 = "IUPHAR") = true)
      ↔ g.filter (fun z => z.2 = "IUPHAR") ≠ [] := by
  rw [List.any_eq_true]
  constructor
  · rintro ⟨x, hx, hp⟩ hnil
    have hmem : x ∈ g.filter (fun z => z.2 = "IUPHAR") := List.mem_filter.mpr ⟨hx, hp⟩
    rw [hnil] at hmem
    cases hmem
  · intro hne
    rcases List.exists_mem_of_ne_nil _ hne with ⟨x, hx⟩
    exact ⟨x, List.mem_of_mem_filter hx, (List.mem_filter.mp hx).2⟩

lemma chooseInteraction_single (prefer : Bool) (x : TargetInteraction × String) :
    chooseInteraction prefer [x] = some x.1 := rfl

lemma chooseInteraction_multi (prefer : Bool) (x y : TargetInteraction × String)
    (rest : List (TargetInteraction × String)) :
    chooseInteraction prefer (x :: y :: rest)
      = if prefer = true ∧ ((x :: y :: rest).filter (fun z => z.2 = "IUPHAR")) ≠ []
        then (((x :: y :: rest).filter (fun z => z.2 = "IUPHAR")).map Prod.fst).head?
        else (pyMaxByEvidence (x :: y :: rest)).map Prod.fst := by
  simp only [chooseInteraction]
  cases prefer with
  | false => simp
  | true =>
    cases hints : ((x :: y :: rest).filter (fun z => z.2 = "IUPHAR")) with
    | nil => simp [hints]
    | cons i tl => simp [hints]

lemma chooseInteraction_mem (prefer : Bool) (g : List (TargetInteraction × String))
    (hg : g ≠ []) :
    ∃ i, chooseInteraction prefer g = some i ∧ i ∈ g.map Prod.fst := by
  match g with
  | [] => exact absurd rfl hg
  | [single] => exact ⟨single.1, rfl, by simp⟩
  | x :: y :: rest =>
    rw [chooseInteraction_multi]
    by_cases hc : prefer = true ∧ ((x :: y :: rest).filter (fun z => z.2 = "IUPHAR")) ≠ []
    · rw [if_pos hc]
      rcases List.exists_mem_of_ne_nil _ hc.2 with ⟨z, hz⟩
      cases hints : ((x :: y :: rest).filter (fun z => z.2 = "IUPHAR")) with
      | nil => exact absurd hints hc.2
      | cons i tl =>
        refine ⟨i.1, by simp, ?_⟩
        exact List.mem_map_of_mem Prod.fst (List.mem_of_mem_filter
          (by rw [hints]; exact List.mem_cons_self i tl))
    · rw [if_neg hc]
      exact ⟨_, rfl, List.mem_map_of_mem Prod.fst (pyMaxByEvidence_mem x (y :: rest))⟩

lemma chooseInteraction_eq_spec (prefer : Bool) (g : List (TargetInteraction × String))
    (hg : g ≠ []) : chooseInteraction prefer g = spec_select prefer g := by
  match g with
  | [] => exact absurd rfl hg
  | [x] =>
    rw [chooseInteraction_single, spec_select]
    by_cases hx : prefer = true ∧ ([x].any (fun z => z.2 = "IUPHAR") = true)
    · rw [if_pos hx]
      have hx2 : x.2 = "IUPHAR" := by simpa using hx.2
      simp [List.filter_cons, hx2]
    · rw [if_neg hx]
      show some x.1
        = (([x].find? (fun z => evidenceKey z = evidenceKey x)).map Prod.fst)
      simp [List.find?]
  | x :: y :: rest =>
    rw [chooseInteraction_multi, spec_select]
    by_cases hc : prefer = true
        ∧ ((x :: y :: rest).any (fun z => z.2 = "IUPHAR") = true)
    · rw [if_pos (⟨hc.1, (any_iuphar_iff_filter _).mp hc.2⟩ :
          prefer = true ∧ ((x :: y :: rest).filter (fun z => z.2 = "IUPHAR")) ≠ []),
        if_pos hc]
    · rw [if_neg (fun hcon => hc ⟨hcon.1, (any_iuphar_iff_filter _).mpr hcon.2⟩),
        if_neg hc]
      show (pyMaxByEvidence (x :: y :: rest)).map Prod.fst
        = (((x :: y :: rest).find? (fun z => evidenceKey z
            = (((y :: rest).map evidenceKey).foldl max (evidenceKey x)))).map Prod.fst)
      rw [(pyMax_eq_find_max (y :: rest) x).2]
      rfl

lemma lookup_of_mem_nodup (m : List (String × List (TargetInteraction × String)))
    (k : String) (g : List (TargetInteraction × String))
    (hnd : (m.map Prod.fst).Nodup) (he : (k, g) ∈ m) : m.lookup k = some g := by
  induction m with
  | nil => cases he
  | cons a m ih =>
    obtain ⟨k', g'⟩ := a
    simp only [List.map_cons, List.nodup_cons] at hnd
    rcases List.mem_cons.mp he with heq | hmem
    · cases heq
      simp [List.lookup]
    · have hk : k' ≠ k := by
        intro hcon
        subst hcon
        exact hnd.1 (by simpa using List.mem_map_of_mem Prod.fst hmem)
      simp [List.lookup, beq_false_of_ne (Ne.symm hk), ih hnd.2 hmem]

lemma filter_merged_nil (prefer : Bool)
    (m : List (String × List (TargetInteraction × String))) (t : String)
    (ht : t ∉ m.map Prod.fst)
    (hwf : ∀ e ∈ m, e.2 ≠ [] ∧ ∀ x ∈ e.2, x.1.target_gene_symbol = e.1) :
    ((m.filterMap (fun kg => chooseInteraction prefer kg.2)).filter
      (fun i => i.target_gene_symbol = t)) = [] := by
  induction m with
  | nil => rfl
  | cons a m ih =>
    obtain ⟨k, g⟩ := a
    simp only [List.map_cons, List.mem_cons, not_or] at ht
    have hwfa := hwf (k, g) (List.mem_cons_self _ _)
    obtain ⟨i, hi, himem⟩ := chooseInteraction_mem prefer g hwfa.1
    have hisym : i.target_gene_symbol = k := by
      obtain ⟨z, hz, rfl⟩ := List.mem_map.mp himem
      exact hwfa.2 z hz
    rw [List.filterMap_cons]
    simp only [hi]
    rw [List.filter_cons_of_neg]
    · exact ih ht.2 (fun e he => hwf e (List.mem_cons_of_mem _ he))
    · simp [hisym, Ne.symm ht.1]

lemma filter_merged (prefer : Bool)
    (m : List (String × List (TargetInteraction × String))) (t : String)
    (hnd : (m.map Prod.fst).Nodup)
    (hwf : ∀ e ∈ m, e.2 ≠ [] ∧ ∀ x ∈ e.2, x.1.target_gene_symbol = e.1) :
    ((m.filterMap (fun kg => chooseInteraction prefer kg.2)).filter
        (fun i => i.target_gene_symbol = t))
      = (match m.lookup t with
         | none => []
         | some g => (chooseInteraction prefer g).toList) := by
  induction m with
  | nil => rfl
  | cons a m ih =>
    obtain ⟨k, g⟩ := a
    simp only [List.map_cons, List.nodup_cons] at hnd
    have hwfa := hwf (k, g) (List.mem_cons_self _ _)
    obtain ⟨i, hi, himem⟩ := chooseInteraction_mem prefer g hwfa.1
    have hisym : i.target_gene_symbol = k := by
      obtain ⟨z, hz, rfl⟩ := List.mem_map.mp himem
      exact hwfa.2 z hz
    rw [List.filterMap_cons]
    simp only [hi]
    by_cases hkt : k = t
    · subst hkt
      rw [List.filter_cons_of_pos (by simpa using hisym)]
      have hlook : ((k, g) :: m).lookup k = some g := by simp [List.lookup]
      rw [hlook]
      have hnil := filter_merged_nil prefer m k hnd.1
        (fun e he => hwf e (List.mem_cons_of_mem _ he))
      rw [hnil]
      show [i] = (chooseInteraction prefer g).toList
      rw [hi]
      rfl
    · rw [List.filter_cons_of_neg (by simp [hisym, hkt])]
      have hlook : ((k, g) :: m).lookup t = m.lookup t := by
        simp [List.lookup, beq_false_of_ne (Ne.symm hkt)]
      rw [hlook]
      exact ih hnd.2 (fun e he => hwf e (List.mem_cons_of_mem _ he))

/-- C2: for every target, the merge keeps exactly the interaction the
claim describes: among the contributions grouped by exact gene symbol, the
first IUPHAR-tagged one when the preference flag is set and one exists,
otherwise the earliest contribution attaining the highest evidence score
(missing scores read as 0). -/
theorem merge_selects_per_target (prefer : Bool) (profiles : List DrugProfile)
    (t : String) (hne : profiles ≠ [])
    (hsrc : ∀ p ∈ profiles, p.source_databases ≠ []) :
    ∃ m, merge_profiles prefer profiles = some m
      ∧ m.interactions.filter (fun i => i.target_gene_symbol = t)
        = (spec_select prefer (contributionsFor profiles t)).toList := by
  match profiles with
  | [] => exact absurd rfl hne
  | base :: rest =>
    refine ⟨_, rfl, ?_⟩
    show ((buildTargetMap (base :: rest)).filterMap
        (fun kg => chooseInteraction prefer kg.2)).filter
        (fun i => i.target_gene_symbol = t)
      = (spec_select prefer (contributionsFor (base :: rest) t)).toList
    obtain ⟨hlook, hnd⟩ := buildMapFrom_invariant (taggedInteractions (base :: rest))
    rw [buildTargetMap_eq]
    have hwf : ∀ e ∈ buildMapFrom (taggedInteractions (base :: rest)),
        e.2 ≠ [] ∧ ∀ x ∈ e.2, x.1.target_gene_symbol = e.1 := by
      intro e he
      obtain ⟨k, g⟩ := e
      have hl := lookup_of_mem_nodup _ k g hnd he
      rw [hlook k] at hl
      by_cases hf : (taggedInteractions (base :: rest)).filter
          (fun x => x.1.target_gene_symbol = k) = []
      · rw [if_pos hf] at hl
        cases hl
      · rw [if_neg hf] at hl
        have hg : g = (taggedInteractions (base :: rest)).filter
            (fun x => x.1.target_gene_symbol = k) := (Option.some.inj hl).symm
        subst hg
        exact ⟨hf, fun x hx => by simpa using (List.mem_filter.mp hx).2⟩
    rw [filter_merged prefer _ t hnd hwf, hlook t]
    by_cases hc : (taggedInteractions (base :: rest)).filter
        (fun x => x.1.target_gene_symbol = t) = []
    · rw [if_pos hc]
      have hcon : contributionsFor (base :: rest) t = [] := by
        rw [contributionsFor]
        exact hc
      rw [hcon]
      simp [spec_select]
    · rw [if_neg hc]
      show (chooseInteraction prefer ((taggedInteractions (base :: rest)).filter
          (fun x => x.1.target_gene_symbol = t))).toList
        = (spec_select prefer (contributionsFor (base :: rest) t)).toList
      rw [chooseInteraction_eq_spec prefer _ hc]
      rfl

/-- Fixture: an IUPHAR-source profile contributing target HTR2A with no
evidence score. -/
def iupharWitnessProfile : DrugProfile :=
  { common_name := "drugW",
    interactions := [{ target_gene_symbol := "HTR2A", evidence_score := none,
                       source_database := some "IUPHAR" }],
    source_databases := ["IUPHAR"] }

/-- Fixture: a ChEMBL-source profile contributing the same target with
evidence score 1. -/
def chemblWitnessProfile : DrugProfile :=
  { common_name := "drugW",
    interactions := [{ target_gene_symbol := "HTR2A", evidence_score := some 1,
                       source_database := some "ChEMBL" }],
    source_databases := ["ChEMBL"] }

/-- C2 witness: instantiated at two single-interaction profiles sharing a
target. -/
theorem merge_selects_per_target_witness :
    (([iupharWitnessProfile, chemblWitnessProfile] : List DrugProfile) ≠ []
      ∧ ∀ p ∈ [iupharWitnessProfile, chemblWitnessProfile], p.source_databases ≠ [])
    ∧ (∃ m, merge_profiles true [iupharWitnessProfile, chemblWitnessProfile] = some m
        ∧ m.interactions.filter (fun i => i.target_gene_symbol = "HTR2A")
          = (spec_select true
              (contributionsFor [iupharWitnessProfile, chemblWitnessProfile] "HTR2A")).toList) :=
  ⟨⟨by decide, by decide⟩,
    merge_selects_per_target true [iupharWitnessProfile, chemblWitnessProfile] "HTR2A"
      (by decide) (by decide)⟩

/-! ## Evidence-scorer claim (C1) -/

lemma chembl_unit_ne_unknown (u : Option String) :
    chembl_parse_potency_unit u ≠ .unknown := by
  cases u with
  | none => decide
  | some s =>
    simp only [chembl_parse_potency_unit]
    split_ifs <;> simp

lemma to_nanomolar_factor (m : PotencyMeasure) :
    m.to_nanomolar
      = if m.unit = .unknown then none
        else some (m.value * spec_conversion_factor m.unit) := by
  cases h : m.unit <;> simp [PotencyMeasure.to_nanomolar, spec_conversion_factor, h]

lemma spec_conversion_factor_pos (u : PotencyUnit) (h : u ≠ .unknown) :
    0 < spec_conversion_factor u := by
  cases u <;> simp [spec_conversion_factor] at h ⊢

lemma chembl_values_eq_spec (acts : List ChemblActivity)
    (hpos : ∀ a ∈ acts, 0 < a.standard_value.getD 0) :
    chembl_activity_values acts = spec_nanomolar_values acts
    ∧ ∀ x ∈ chembl_activity_values acts, 0 < x := by
  induction acts with
  | nil => exact ⟨rfl, by simp [chembl_activity_values]⟩
  | cons a l ih =>
    obtain ⟨ih1, ih2⟩ := ih (fun b hb => hpos b (List.mem_cons_of_mem a hb))
    have hap := hpos a (List.mem_cons_self a l)
    obtain ⟨v, hv, hvpos⟩ : ∃ v, a.standard_value = some v ∧ 0 < v := by
      cases hsv : a.standard_value with
      | none => rw [hsv] at hap; simp at hap
      | some w => exact ⟨w, rfl, by rw [hsv] at hap; simpa using hap⟩
    have hu := chembl_unit_ne_unknown a.standard_units
    have hfpos := spec_conversion_factor_pos _ hu
    have hnm : (⟨v, chembl_parse_potency_unit a.standard_units,
        a.standard_type.getD "unknown", none, none⟩ : PotencyMeasure).to_nanomolar
        = some (v * spec_conversion_factor (chembl_parse_potency_unit a.standard_units)) := by
      rw [to_nanomolar_factor]
      simp [hu]
    have hnmpos : 0 < v * spec_conversion_factor (chembl_parse_potency_unit a.standard_units) :=
      mul_pos hvpos hfpos
    have hspecm : (match chembl_parse_potency_unit a.standard_units with
        | PotencyUnit.unknown => none
        | u => some (v * spec_conversion_factor u))
        = some (v * spec_conversion_factor (chembl_parse_potency_unit a.standard_units)) := by
      cases hcu : chembl_parse_potency_unit a.standard_units <;> simp_all
    have hcode : chembl_activity_values (a :: l)
        = (v * spec_conversion_factor (chembl_parse_potency_unit a.standard_units))
          :: chembl_activity_values l := by
      simp only [chembl_activity_values, List.filterMap_cons, hv, hnm,
        if_neg (ne_of_gt hvpos), if_neg (ne_of_gt hnmpos)]
    have hspec2 : spec_nanomolar_values (a :: l)
        = (v * spec_conversion_factor (chembl_parse_potency_unit a.standard_units))
          :: spec_nanomolar_values l := by
      simp only [spec_nanomolar_values, List.filterMap_cons, hv, Option.some_bind, hspecm]
    constructor
    · rw [hcode, hspec2, ih1]
    · intro x hx
      rw [hcode] at hx
      rcases List.mem_cons.mp hx with rfl | hx'
      · exact hnmpos
      · exact ih2 x hx'

lemma listMean_pos (V : List ℚ) (hne : V ≠ []) (hpos : ∀ x ∈ V, 0 < x) :
    0 < listMean V := by
  rw [listMean]
  apply div_pos (List.sum_pos V hpos hne)
  exact_mod_cast List.length_pos.mpr hne

lemma evidence_score_eq_spec (acts : List ChemblActivity)
    (hpos : ∀ a ∈ acts, 0 < a.standard_value.getD 0) :
    calculate_evidence_score acts = spec_evidence_score acts := by
  obtain ⟨hv, hp⟩ := chembl_values_eq_spec acts hpos
  have hp' : ∀ x ∈ spec_nanomolar_values acts, 0 < x := fun x hx =>
    hp x (by rw [hv]; exact hx)
  simp only [calculate_evidence_score, spec_evidence_score, hv]
  by_cases hlen : 1 < (spec_nanomolar_values acts).length
  · have hne : spec_nanomolar_values acts ≠ [] := by
      intro h
      rw [h] at hlen
      simp at hlen
    have hmean : 0 < listMean (spec_nanomolar_values acts) := listMean_pos _ hne hp'
    rw [if_pos hlen, if_pos hmean,
      if_pos (show 2 ≤ (spec_nanomolar_values acts).length from hlen)]
  · rw [if_neg hlen, if_neg (show ¬ 2 ≤ (spec_nanomolar_values acts).length from hlen)]

/-- Fixture: a single 100 nM activity record. -/
def singleActivity : ChemblActivity :=
  { standard_value := some 100, standard_units := some "nM", standard_type := some "Ki" }

/-- Fixture: four tightly clustered records around 100 nM. -/
def clusteredActivities : List ChemblActivity :=
  [{ standard_value := some 95, standard_units := some "nM", standard_type := some "Ki" },
   { standard_value := some 100, standard_units := some "nM", standard_type := some "Ki" },
   { standard_value := some 100, standard_units := some "nM", standard_type := some "Ki" },
   { standard_value := some 105, standard_units := some "nM", standard_type := some "Ki" }]

/-- Fixture: three widely scattered records. -/
def scatteredActivities : List ChemblActivity :=
  [{ standard_value := some 10, standard_units := some "nM", standard_type := some "Ki" },
   { standard_value := some 1000, standard_units := some "nM", standard_type := some "Ki" },
   { standard_value := some 50, standard_units := some "nM", standard_type := some "Ki" }]

lemma round3_int (x : ℝ) (n : ℤ) (h : 1000 * x = (n : ℝ)) :
    round3 x = (n : ℝ) / 1000 := by
  rw [round3, h, round_intCast]

lemma chembl_nM : chembl_parse_potency_unit (some "nM") = .nanomolar := by decide

lemma score_single_eval : calculate_evidence_score [singleActivity] = 0.26 := by
  have hval : chembl_activity_values [singleActivity] = [100] := by
    norm_num [chembl_activity_values, List.filterMap_cons, singleActivity, chembl_nM,
      PotencyMeasure.to_nanomolar]
  simp only [calculate_evidence_score, hval]
  rw [if_neg (by norm_num : ¬ (1 < ([100] : List ℚ).length))]
  rw [round3_int _ 260 ?_]
  · norm_num
  · rw [min_eq_right (by norm_num [singleActivity] :
      (([singleActivity].length : ℝ)) / 10 ≤ 1)]
    norm_num

lemma score_clustered_eval : 0.5 < calculate_evidence_score clusteredActivities := by
  have hval : chembl_activity_values clusteredActivities = [95, 100, 100, 105] := by
    norm_num [chembl_activity_values, List.filterMap_cons, clusteredActivities, chembl_nM,
      PotencyMeasure.to_nanomolar]
  have hmean : listMean [95, 100, 100, 105] = 100 := by
    norm_num [listMean]
  have hvar : sampleVariance [95, 100, 100, 105] = 50 / 3 := by
    norm_num [sampleVariance, listMean]
  have hsd0 : 0 ≤ sampleStdev [95, 100, 100, 105] := Real.sqrt_nonneg _
  have hsd5 : sampleStdev [95, 100, 100, 105] ≤ 5 := by
    rw [sampleStdev, hvar]
    calc Real.sqrt ((50 / 3 : ℚ) : ℝ) ≤ Real.sqrt 25 :=
          Real.sqrt_le_sqrt (by norm_num)
      _ = 5 := by
          rw [show (25 : ℝ) = 5 ^ 2 by norm_num, Real.sqrt_sq (by norm_num : (0:ℝ) ≤ 5)]
  simp only [calculate_evidence_score, hval]
  rw [if_pos (by norm_num : 1 < ([95, 100, 100, 105] : List ℚ).length), hmean,
    if_pos (by norm_num : (0:ℚ) < 100)]
  rw [min_eq_right (by norm_num [clusteredActivities] :
    ((clusteredActivities.length : ℝ)) / 10 ≤ 1)]
  have hlen : ((clusteredActivities.length : ℕ) : ℝ) = 4 := by
    norm_num [clusteredActivities]
  rw [hlen]
  have hcons : (0.95 : ℝ) ≤ max 0 (1 - sampleStdev [95, 100, 100, 105] / ((100 : ℚ) : ℝ)) := by
    refine le_trans ?_ (le_max_right 0 _)
    have hc : ((100 : ℚ) : ℝ) = 100 := by norm_num
    rw [hc]
    nlinarith [hsd5]
  have hup : max 0 (1 - sampleStdev [95, 100, 100, 105] / ((100 : ℚ) : ℝ)) ≤ 1 := by
    have hc : ((100 : ℚ) : ℝ) = 100 := by norm_num
    rw [hc]
    apply max_le (by norm_num)
    nlinarith [hsd0]
  rw [round3, round_eq]
  have hfloor : (620 : ℤ) ≤ ⌊1000 * (0.6 * ((4:ℝ) / 10)
      + 0.4 * max 0 (1 - sampleStdev [95, 100, 100, 105] / ((100 : ℚ) : ℝ))) + 1 / 2⌋ := by
    apply Int.le_floor.mpr
    push_cast
    nlinarith [hcons]
  have hcast : (620 : ℝ) ≤ ((⌊1000 * (0.6 * ((4:ℝ) / 10)
      + 0.4 * max 0 (1 - sampleStdev [95, 100, 100, 105] / ((100 : ℚ) : ℝ))) + 1 / 2⌋ : ℤ) : ℝ) := by
    exact_mod_cast hfloor
  linarith

lemma score_scattered_eval : calculate_evidence_score scatteredActivities < 0.5 := by
  have hval : chembl_activity_values scatteredActivities = [10, 1000, 50] := by
    norm_num [chembl_activity_values, List.filterMap_cons, scatteredActivities, chembl_nM,
      PotencyMeasure.to_nanomolar]
  have hmean : listMean [10, 1000, 50] = 1060 / 3 := by
    norm_num [listMean]
  have hvar : sampleVariance [10, 1000, 50] = 942100 / 3 := by
    norm_num [sampleVariance, listMean]
  have hsd_ge : ((1060 / 3 : ℚ) : ℝ) ≤ sampleStdev [10, 1000, 50] := by
    rw [sampleStdev, hvar]
    rw [Real.le_sqrt (by norm_num) (by norm_num)]
    norm_num
  have hcv : (1 : ℝ) ≤ sampleStdev [10, 1000, 50] / ((1060 / 3 : ℚ) : ℝ) :=
    (one_le_div (by norm_num)).mpr hsd_ge
  have hcons : max 0 (1 - sampleStdev [10, 1000, 50] / ((1060 / 3 : ℚ) : ℝ)) = 0 :=
    max_eq_left (by linarith)
  simp only [calculate_evidence_score, hval]
  rw [if_pos (by norm_num : 1 < ([10, 1000, 50] : List ℚ).length), hmean,
    if_pos (by norm_num : (0:ℚ) < 1060 / 3), hcons]
  rw [min_eq_right (by norm_num [scatteredActivities] :
    ((scatteredActivities.length : ℝ)) / 10 ≤ 1)]
  rw [round3_int _ 180 ?_]
  · norm_num
  · norm_num [scatteredActivities]

/-- C1: on positive-valued records the evidence score equals the
specification formula (study-count term, consistency term over the
nanomolar conversions, weights 0.6 / 0.4, rounded to 3 decimals), a single
measurement scores exactly 0.26 which is below 0.3, four values clustered
around 100 score above 0.5, and the values 10, 1000, 50 nM score below
0.5. -/
theorem evidence_score_matches_spec (acts : List ChemblActivity)
    (hpos : ∀ a ∈ acts, 0 < a.standard_value.getD 0) :
    calculate_evidence_score acts = spec_evidence_score acts
    ∧ calculate_evidence_score [singleActivity] = 0.26
    ∧ (0.26 : ℝ) < 0.3
    ∧ 0.5 < calculate_evidence_score clusteredActivities
    ∧ calculate_evidence_score scatteredActivities < 0.5 :=
  ⟨evidence_score_eq_spec acts hpos, score_single_eval, by norm_num,
    score_clustered_eval, score_scattered_eval⟩

/-- C1 witness: instantiated at the single 100 nM record. -/
theorem evidence_score_matches_spec_witness :
    (∀ a ∈ [singleActivity], 0 < a.standard_value.getD 0)
    ∧ (calculate_evidence_score [singleActivity] = spec_evidence_score [singleActivity]
      ∧ calculate_evidence_score [singleActivity] = 0.26
      ∧ (0.26 : ℝ) < 0.3
      ∧ 0.5 < calculate_evidence_score clusteredActivities
      ∧ calculate_evidence_score scatteredActivities < 0.5) :=
  ⟨by decide, evidence_score_matches_spec [singleActivity] (by decide)⟩

end BrainWideMap
